import Mathlib

/-!
Verification of the block-storage discovery core (`block_linux.go`) against its
natural-language specification.  The Go code is shallowly embedded: the file
system is an abstract map from path strings to contents, fallible reads return
`Option`, a Go panic is an explicit `GoVal.panicked` value, and `uint64`
arithmetic is `Nat` with explicit `% 2 ^ 64` where Go would wrap.
`filepath.Join`'s path cleaning is not modelled: joined path strings are formed
by interleaving `/`, and the abstract file system is keyed by those strings, so
every theorem quantifying over file systems is insensitive to the cleaning.
Whitespace predicates are modelled on the ASCII whitespace set used by Go's
`strings` package for ASCII input (device attribute files are ASCII).  String
primitives are defined structurally over character lists (byte-level Go
operations and character-level operations agree on the ASCII delimiters used
throughout, since no ASCII byte occurs inside a multi-byte UTF-8 sequence).
-/

/-- The ASCII whitespace set recognised by Go's `strings.TrimSpace` /
`strings.Fields` on ASCII input: space, tab, newline, vertical tab, form feed,
carriage return. -/
def isGoSpace (c : Char) : Bool :=
  c == ' ' || c == '\t' || c == '\n' || c == '\x0B' || c == '\x0C' || c == '\r'

/-- Go `strings.TrimSpace`: drop leading and trailing whitespace. -/
def goTrimSpace (s : String) : String :=
  String.mk (((s.toList.dropWhile isGoSpace).reverse.dropWhile isGoSpace).reverse)

/-- Go `strings.HasPrefix` (structural model of the byte-prefix test). -/
def goHasPrefix (s pre : String) : Bool :=
  pre.toList.isPrefixOf s.toList

/-- Split a character list at every character satisfying `p` (each such
character is consumed); always returns at least one group. -/
def splitP (p : Char → Bool) : List Char → List (List Char)
  | [] => [[]]
  | c :: rest =>
    if p c then [] :: splitP p rest
    else
      match splitP p rest with
      | [] => [[c]]
      | g :: gs => (c :: g) :: gs

/-- Go `strings.Split` on a one-character separator. -/
def goSplitChar (sep : Char) (s : String) : List String :=
  (splitP (fun c => c == sep) s.toList).map String.mk

/-- Go `strings.Fields`: maximal runs of non-whitespace characters. -/
def goFields (s : String) : List String :=
  ((splitP isGoSpace s.toList).map String.mk).filter (fun f => f ≠ "")

/-- Decimal digits to a natural number (helper for the `strconv` models). -/
def digitsToNat (cs : List Char) : Nat :=
  cs.foldl (fun a c => a * 10 + (c.toNat - 48)) 0

/-- Go `strconv.ParseUint(s, 10, 64)`, as used by the size readers: `some n`
on success, `none` on a syntax or range error (the callers only test the error
and fall back to 0, so the clamped range-error value is irrelevant). -/
def goParseUint64 (s : String) : Option Nat :=
  if s.toList.length = 0 then none
  else if s.toList.all Char.isDigit = false then none
  else
    let n := digitsToNat s.toList
    if n < 2 ^ 64 then some n else none

/-- Go `strconv.Atoi` for a 64-bit `int`: returns the parsed value and an
ok flag.  On a syntax error the returned value is 0; on a range error it is
the clamped bound - in both cases the flag is `false` (Go: `err != nil`). -/
def goAtoi (s : String) : Int × Bool :=
  let cs := s.toList
  let (neg, ds) :=
    match cs with
    | '-' :: rest => (true, rest)
    | '+' :: rest => (false, rest)
    | _ => (false, cs)
  if ds.length = 0 then ((0 : Int), false)
  else if ds.all Char.isDigit = false then ((0 : Int), false)
  else
    let n := digitsToNat ds
    if neg then
      if n ≤ 2 ^ 63 then (-(n : Int), true) else (-((2 ^ 63 : Nat) : Int), false)
    else
      if n ≤ 2 ^ 63 - 1 then ((n : Int), true) else (((2 ^ 63 - 1 : Nat) : Int), false)

/-- Go `strings.SplitN(s, sep, 2)` for a one-character separator: at most one
split, at the first occurrence of the separator. -/
def goSplitN2 (sep : Char) (s : String) : List String :=
  match goSplitChar sep s with
  | [] => [s]
  | [x] => [x]
  | x :: xs => [x, String.intercalate (String.mk [sep]) xs]

/-- Strip one trailing carriage return (Go `bufio.ScanLines` drops it). -/
def dropCR (s : String) : String :=
  match s.toList.reverse with
  | '\r' :: rest => String.mk rest.reverse
  | _ => s

/-- The token stream of Go's `bufio.Scanner` with the default `ScanLines`
split: split on newline, drop the final empty token produced by a trailing
newline, strip one trailing `\r` per line. -/
def goScanLines (content : String) : List String :=
  let parts := goSplitChar '\n' content
  (match parts.getLast? with
   | some "" => parts.dropLast
   | _ => parts).map dropCR

/-- Go `filepath.Join` restricted to interleaving the separator; the `Clean`
step is absorbed into the abstract file-system map (see the file header). -/
def goJoin (parts : List String) : String :=
  String.intercalate "/" parts

/-- Go `filepath.Base`: last element of the path after stripping trailing
slashes; `"."` for the empty path, `"/"` for an all-slash path. -/
def goBase (path : String) : String :=
  if path = "" then "."
  else
    let stripped := (path.toList.reverse.dropWhile (fun c => c == '/')).reverse
    if stripped = [] then "/"
    else String.mk (stripped.reverse.takeWhile (fun c => c ≠ '/')).reverse

/-- Result of a Go computation that can panic. -/
inductive GoVal (α : Type) where
  | panicked : GoVal α
  | ret : α → GoVal α
deriving DecidableEq, Repr

/-- Abstract read-only file system: contents of regular files, directory
listings, and symbolic-link targets, each keyed by a path string.  `none`
models any read error. -/
structure FS where
  readFile : String → Option String
  readDir : String → Option (List String)
  readlink : String → Option String

/-- Modelled from the spec: the device-tree root path supplied by the path
resolution collaborator (`pathSysBlock` in the `linuxpath` package, which is
not under `src/`); the concrete string is irrelevant to every theorem. -/
def pathSysBlock : String := "/sys/block"

/-- Modelled from the spec: the mount-table path (`pathEtcMtab`, not under
`src/`). -/
def pathEtcMtab : String := "/etc/mtab"

/-- Modelled from the spec: the properties-database root (`pathRunUdevData`,
not under `src/`). -/
def pathRunUdevData : String := "/run/udev/data"

/-- Modelled from the spec: the distinct unknown-string sentinel from the
`util` package (not under `src/`); §3 requires it to be a fixed non-empty
string, and no theorem depends on the concrete value. -/
def UNKNOWN : String := "unknown"

/-- `sectorSize` constant from the source. -/
def sectorSize : Nat := 512

/-- `DriveType` enumeration from the source. -/
inductive DriveType where
  | DRIVE_TYPE_UNKNOWN
  | DRIVE_TYPE_HDD
  | DRIVE_TYPE_FDD
  | DRIVE_TYPE_ODD
  | DRIVE_TYPE_SSD
deriving DecidableEq, Repr

export DriveType (DRIVE_TYPE_UNKNOWN DRIVE_TYPE_HDD DRIVE_TYPE_FDD DRIVE_TYPE_ODD DRIVE_TYPE_SSD)

/-- `StorageController` enumeration from the source. -/
inductive StorageController where
  | STORAGE_CONTROLLER_UNKNOWN
  | STORAGE_CONTROLLER_IDE
  | STORAGE_CONTROLLER_SCSI
  | STORAGE_CONTROLLER_NVME
  | STORAGE_CONTROLLER_VIRTIO
  | STORAGE_CONTROLLER_MMC
deriving DecidableEq, Repr

export StorageController (STORAGE_CONTROLLER_UNKNOWN STORAGE_CONTROLLER_IDE STORAGE_CONTROLLER_SCSI STORAGE_CONTROLLER_NVME STORAGE_CONTROLLER_VIRTIO STORAGE_CONTROLLER_MMC)

/-- `diskTypes` from the source: drive type and storage controller of a disk,
decided by an if/else chain of name-prefix tests. -/
def diskTypes (dname : String) : DriveType × StorageController :=
  if goHasPrefix dname "fd" then ( DRIVE_TYPE_FDD, STORAGE_CONTROLLER_UNKNOWN)
  else if goHasPrefix dname "sd" then ( DRIVE_TYPE_HDD, STORAGE_CONTROLLER_SCSI)
  else if goHasPrefix dname "hd" then ( DRIVE_TYPE_HDD, STORAGE_CONTROLLER_IDE)
  else if goHasPrefix dname "vd" then ( DRIVE_TYPE_HDD, STORAGE_CONTROLLER_VIRTIO)
  else if goHasPrefix dname "nvme" then ( DRIVE_TYPE_SSD, STORAGE_CONTROLLER_NVME)
  else if goHasPrefix dname "sr" then ( DRIVE_TYPE_ODD, STORAGE_CONTROLLER_SCSI)
  else if goHasPrefix dname "xvd" then ( DRIVE_TYPE_HDD, STORAGE_CONTROLLER_SCSI)
  else if goHasPrefix dname "mmc" then ( DRIVE_TYPE_SSD, STORAGE_CONTROLLER_MMC)
  else ( DRIVE_TYPE_UNKNOWN, STORAGE_CONTROLLER_UNKNOWN)

/-- The spec's classification table (§4.2), written as the spec states it: an
ordered rule list searched for the first rule whose prefix matches. -/
def classifyRules : List (String × DriveType × StorageController) :=
  [("fd", DRIVE_TYPE_FDD, STORAGE_CONTROLLER_UNKNOWN),
   ("sd", DRIVE_TYPE_HDD, STORAGE_CONTROLLER_SCSI),
   ("hd", DRIVE_TYPE_HDD, STORAGE_CONTROLLER_IDE),
   ("vd", DRIVE_TYPE_HDD, STORAGE_CONTROLLER_VIRTIO),
   ("nvme", DRIVE_TYPE_SSD, STORAGE_CONTROLLER_NVME),
   ("sr", DRIVE_TYPE_ODD, STORAGE_CONTROLLER_SCSI),
   ("xvd", DRIVE_TYPE_HDD, STORAGE_CONTROLLER_SCSI),
   ("mmc", DRIVE_TYPE_SSD, STORAGE_CONTROLLER_MMC)]

/-- First-matching-prefix semantics of the spec's classification table. -/
def specClassify (name : String) : DriveType × StorageController :=
  match classifyRules.find? (fun r => goHasPrefix name r.1) with
  | some r => (r.2.1, r.2.2)
  | none => ( DRIVE_TYPE_UNKNOWN, STORAGE_CONTROLLER_UNKNOWN)

/-- C6: the classifier is a pure total function on device names whose result
is the first matching prefix rule of the fixed table, in the fixed order, and
(Unknown, Unknown) for every name matching no prefix; checked against all
eight classification examples of spec §8. -/
theorem diskTypes_firstPrefix :
    (∀ name : String, diskTypes name = specClassify name) ∧
    diskTypes "sda6" = ( DRIVE_TYPE_HDD, STORAGE_CONTROLLER_SCSI) ∧
    diskTypes "nvme0n1" = ( DRIVE_TYPE_SSD, STORAGE_CONTROLLER_NVME) ∧
    diskTypes "vda1" = ( DRIVE_TYPE_HDD, STORAGE_CONTROLLER_VIRTIO) ∧
    diskTypes "xvda1" = ( DRIVE_TYPE_HDD, STORAGE_CONTROLLER_SCSI) ∧
    diskTypes "fda1" = ( DRIVE_TYPE_FDD, STORAGE_CONTROLLER_UNKNOWN) ∧
    diskTypes "sr0" = ( DRIVE_TYPE_ODD, STORAGE_CONTROLLER_SCSI) ∧
    diskTypes "mmcblk0" = ( DRIVE_TYPE_SSD, STORAGE_CONTROLLER_MMC) ∧
    diskTypes "anything-else" = ( DRIVE_TYPE_UNKNOWN, STORAGE_CONTROLLER_UNKNOWN) := by
  refine ⟨?_, by decide, by decide, by decide, by decide,
    by decide, by decide, by decide, by decide⟩
  intro name
  simp only [diskTypes, specClassify, classifyRules, List.find?]
  by_cases h1 : goHasPrefix name "fd" <;>
    by_cases h2 : goHasPrefix name "sd" <;>
      by_cases h3 : goHasPrefix name "hd" <;>
        by_cases h4 : goHasPrefix name "vd" <;>
          by_cases h5 : goHasPrefix name "nvme" <;>
            by_cases h6 : goHasPrefix name "sr" <;>
              by_cases h7 : goHasPrefix name "xvd" <;>
                by_cases h8 : goHasPrefix name "mmc" <;>
                  simp [h1, h2, h3, h4, h5, h6, h7, h8]

/-- `diskSizeBytes` from the source: decimal sector count from the device's
`size` attribute times the 512-byte sector size, 0 on any read or parse
failure; the Go `uint64` product wraps modulo `2 ^ 64`. -/
def diskSizeBytes (fs : FS) (disk : String) : Nat :=
  match fs.readFile (goJoin [pathSysBlock, disk, "size"]) with
  | none => 0
  | some contents =>
    match goParseUint64 (goTrimSpace contents) with
    | none => 0
    | some size => size * sectorSize % 2 ^ 64

/-- `diskPhysicalBlockSizeBytes` from the source. -/
def diskPhysicalBlockSizeBytes (fs : FS) (disk : String) : Nat :=
  match fs.readFile (goJoin [pathSysBlock, disk, "queue", "physical_block_size"]) with
  | none => 0
  | some contents =>
    match goParseUint64 (goTrimSpace contents) with
    | none => 0
    | some size => size

/-- `partitionSizeBytes` from the source: same derivation as the disk size,
on the partition's own `size` attribute. -/
def partitionSizeBytes (fs : FS) (disk : String) (part : String) : Nat :=
  match fs.readFile (goJoin [pathSysBlock, disk, part, "size"]) with
  | none => 0
  | some contents =>
    match goParseUint64 (goTrimSpace contents) with
    | none => 0
    | some size => size * sectorSize % 2 ^ 64

/-- `diskVendor` from the source. -/
def diskVendor (fs : FS) (disk : String) : String :=
  match fs.readFile (goJoin [pathSysBlock, disk, "device", "vendor"]) with
  | none => UNKNOWN
  | some contents => goTrimSpace contents

/-- `diskIsRemovable` from the source: the trimmed `removable` attribute must
be exactly "1". -/
def diskIsRemovable (fs : FS) (disk : String) : Bool :=
  match fs.readFile (goJoin [pathSysBlock, disk, "removable"]) with
  | none => false
  | some contents => goTrimSpace contents = "1"

/-- Modelled from the spec: `safeIntFromFile` (`util` package, not under
`src/`) reads an attribute file, trims surrounding whitespace and parses a
decimal integer, degrading to a -1 sentinel when the file is unreadable or the
value malformed (§4.3 failure isolation). -/
def safeIntFromFile (fs : FS) (path : String) : Int :=
  match fs.readFile path with
  | none => -1
  | some contents =>
    match goAtoi (goTrimSpace contents) with
    | (n, true) => n
    | (_, false) => -1

/-- `diskIsRotational` from the source: the `queue/rotational` attribute is
exactly 1. -/
def diskIsRotational (fs : FS) (devName : String) : Bool :=
  safeIntFromFile fs (goJoin [pathSysBlock, devName, "queue", "rotational"]) = 1

/-- The loop body of `diskNUMANodeID` from the source, with explicit fuel (the
source loop terminates because `filepath.Base` strips every `/`, after which
the `../devices/` prefix test fails).  The source checks `err != nil` after
reading `numa_node` - i.e. it enters the parse only when the read FAILED, with
empty contents - and again checks `err != nil` after `strconv.Atoi`, returning
Atoi's error value; on a successful read it advances to `filepath.Base` of the
current segment. -/
def numaNodeLoop (fs : FS) : Nat → String → Int
  | 0, _ => -1
  | fuel + 1, seg =>
    if goHasPrefix seg "../devices/" then
      match fs.readFile (goJoin [pathSysBlock, seg, "numa_node"]) with
      | none =>
        match goAtoi "" with
        | (nodeInt, false) => nodeInt
        | (_, true) => numaNodeLoop fs fuel (goBase seg)
      | some _ => numaNodeLoop fs fuel (goBase seg)
    else -1

/-- `diskNUMANodeID` from the source: resolve the device symlink, then run the
ancestor-walk loop. -/
def diskNUMANodeID (fs : FS) (disk : String) : Int :=
  match fs.readlink (goJoin [pathSysBlock, disk]) with
  | none => -1
  | some link => numaNodeLoop fs (link.toList.length + 1) link

/-- Parse the `E:KEY=VALUE` lines of a udev record into a last-wins key
lookup (`udevInfo`'s parsing loop from the source). -/
def udevParseLines (lines : List String) : String → Option String :=
  lines.foldl
    (fun m line =>
      if goHasPrefix line "E:" then
        match goSplitN2 '=' (String.mk (line.toList.drop 2)) with
        | [k, v] => fun q => if q = k then some v else m q
        | _ => m
      else m)
    (fun _ => none)

/-- `udevInfo` from the source: read the device's `MAJOR:MINOR` numbers, then
load and parse its record from the properties database. -/
def udevInfo (fs : FS) (disk : String) : Option (String → Option String) :=
  match fs.readFile (goJoin [pathSysBlock, disk, "dev"]) with
  | none => none
  | some devNo =>
    let udevID := "b" ++ goTrimSpace devNo
    match fs.readFile (goJoin [pathRunUdevData, udevID]) with
    | none => none
    | some bytes => some (udevParseLines (goSplitChar '\n' bytes))

/-- `diskModel` from the source. -/
def diskModel (fs : FS) (disk : String) : String :=
  match udevInfo fs disk with
  | none => UNKNOWN
  | some info =>
    match info "ID_MODEL" with
    | some model => model
    | none => UNKNOWN

/-- `diskSerialNumber` from the source: only the `ID_SERIAL_SHORT` key is
consulted; there is no fallback lookup. -/
def diskSerialNumber (fs : FS) (disk : String) : String :=
  match udevInfo fs disk with
  | none => UNKNOWN
  | some info =>
    match info "ID_SERIAL_SHORT" with
    | some serial => serial
    | none => UNKNOWN

/-- `diskBusPath` from the source. -/
def diskBusPath (fs : FS) (disk : String) : String :=
  match udevInfo fs disk with
  | none => UNKNOWN
  | some info =>
    match info "ID_PATH" with
    | some path => path
    | none => UNKNOWN

/-- `diskWWN` from the source: `ID_WWN_WITH_EXTENSION` with a fallback to
`ID_WWN`. -/
def diskWWN (fs : FS) (disk : String) : String :=
  match udevInfo fs disk with
  | none => UNKNOWN
  | some info =>
    match info "ID_WWN_WITH_EXTENSION" with
    | some wwn => wwn
    | none =>
      match info "ID_WWN" with
      | some wwn => wwn
      | none => UNKNOWN

/-- `mtabEntry` record from the source. -/
structure mtabEntry where
  Partition : String
  Mountpoint : String
  FilesystemType : String
  Options : List String
deriving DecidableEq, Repr

/-- The mount-point octal-escape decoder: the semantics of the source's
`strings.NewReplacer("\\011", tab, "\\012", newline, "\\040", space,
"\\\\", backslash).Replace` - a single left-to-right pass replacing the
leftmost match, trying the patterns in argument order at each position, never
rescanning produced output. -/
def mtabDecode : List Char → List Char
  | '\\' :: '0' :: '1' :: '1' :: rest => '\t' :: mtabDecode rest
  | '\\' :: '0' :: '1' :: '2' :: rest => '\n' :: mtabDecode rest
  | '\\' :: '0' :: '4' :: '0' :: rest => ' ' :: mtabDecode rest
  | '\\' :: '\\' :: rest => '\\' :: mtabDecode rest
  | c :: rest => c :: mtabDecode rest
  | [] => []

/-- String form of the mount-point decoder. -/
def mtabDecodeStr (s : String) : String :=
  String.mk (mtabDecode s.toList)

/-- `parseMtabEntry` from the source.  The source indexes `line[0]` before any
length check, so the empty line panics; the panic is the explicit
`GoVal.panicked` value. -/
def parseMtabEntry (line : String) : GoVal (Option mtabEntry) :=
  match line.toList with
  | [] => GoVal.panicked
  | c :: _ =>
    if c ≠ '/' then GoVal.ret none
    else
      let fields := goFields line
      if fields.length < 4 then GoVal.ret none
      else
        GoVal.ret (some
          { Partition := fields.getD 0 ""
            Mountpoint := mtabDecodeStr (fields.getD 1 "")
            FilesystemType := fields.getD 2 ""
            Options := goSplitChar ',' (fields.getD 3 "") })

/-- The read-only loop of `partitionInfo` from the source: start from `true`,
flip to `false` and break at the first literal "rw" option. -/
def roFromOptions : List String → Bool
  | [] => true
  | opt :: rest => if opt = "rw" then false else roFromOptions rest

/-- Normalisation of the partition argument in `partitionInfo` from the
source: prefix `/dev/` unless the argument already has the `/dev` prefix. -/
def normDev (part : String) : String :=
  if goHasPrefix part "/dev" = false then "/dev/" ++ part else part

/-- The scan loop of `partitionInfo` from the source: parse each mount-table
line, skip non-entries and non-matching devices, and return mount point,
filesystem type and read-only status of the first match; a parse panic
propagates. -/
def partitionInfoLoop (part : String) : List String → GoVal (String × String × Bool)
  | [] => GoVal.ret ("", "", true)
  | line :: rest =>
    match parseMtabEntry line with
    | GoVal.panicked => GoVal.panicked
    | GoVal.ret none => partitionInfoLoop part rest
    | GoVal.ret (some entry) =>
      if entry.Partition ≠ part then partitionInfoLoop part rest
      else GoVal.ret (entry.Mountpoint, entry.FilesystemType, roFromOptions entry.Options)

/-- `partitionInfo` from the source: normalise the device path, open the
mount table (an open failure yields the empty/read-only default), scan its
lines. -/
def partitionInfo (fs : FS) (part : String) : GoVal (String × String × Bool) :=
  let dev := normDev part
  match fs.readFile pathEtcMtab with
  | none => GoVal.ret ("", "", true)
  | some content => partitionInfoLoop dev (goScanLines content)

/-- `Partition` record from the source, restricted to the fields the Linux
discovery populates; the source field `Type` is spelled `PartType` (`Type` is
reserved in Lean) and the non-owning `Disk` back-reference is modelled by the
containment relation itself (spec §9 mandates a plain relation). -/
structure Partition where
  Name : String
  SizeBytes : Nat
  MountPoint : String
  PartType : String
  IsReadOnly : Bool
deriving DecidableEq, Repr

/-- `Disk` record from the source. -/
structure Disk where
  Name : String
  SizeBytes : Nat
  PhysicalBlockSizeBytes : Nat
  DriveType : DriveType
  IsRemovable : Bool
  StorageController : StorageController
  BusPath : String
  NUMANodeID : Int
  Vendor : String
  Model : String
  SerialNumber : String
  WWN : String
  Partitions : List Partition
deriving DecidableEq, Repr

/-- `BlockInfo` record from the source (the fields the Linux backend fills). -/
structure BlockInfo where
  TotalPhysicalBytes : Nat
  Disks : List Disk
deriving DecidableEq, Repr

/-- The per-entry loop of `diskPartitions` from the source: keep entries whose
name begins with the disk's name, resolve size and mount info for each; a
mount-table parse panic propagates. -/
def diskPartitionsLoop (fs : FS) (disk : String) : List String → GoVal (List Partition)
  | [] => GoVal.ret []
  | fname :: rest =>
    if goHasPrefix fname disk = false then diskPartitionsLoop fs disk rest
    else
      match partitionInfo fs fname with
      | GoVal.panicked => GoVal.panicked
      | GoVal.ret (mp, pt, ro) =>
        match diskPartitionsLoop fs disk rest with
        | GoVal.panicked => GoVal.panicked
        | GoVal.ret out =>
          GoVal.ret
            ({ Name := fname
               SizeBytes := partitionSizeBytes fs disk fname
               MountPoint := mp
               PartType := pt
               IsReadOnly := ro } :: out)

/-- `diskPartitions` from the source: list the disk's directory (a listing
failure is only warned about and yields the empty partition list), then build
a partition record per matching entry. -/
def diskPartitions (fs : FS) (disk : String) : GoVal (List Partition) :=
  match fs.readDir (goJoin [pathSysBlock, disk]) with
  | none => GoVal.ret []
  | some files => diskPartitionsLoop fs disk files

/-- The per-device construction in the loop body of `disks` from the source:
classification (with the non-rotational override forcing SSD), the attribute
and properties reads, and the partition enumeration. -/
def buildDisk (fs : FS) (dname : String) : GoVal Disk :=
  let types := diskTypes dname
  let driveType := if diskIsRotational fs dname = false then DRIVE_TYPE_SSD else types.1
  match diskPartitions fs dname with
  | GoVal.panicked => GoVal.panicked
  | GoVal.ret parts =>
    GoVal.ret
      { Name := dname
        SizeBytes := diskSizeBytes fs dname
        PhysicalBlockSizeBytes := diskPhysicalBlockSizeBytes fs dname
        DriveType := driveType
        IsRemovable := diskIsRemovable fs dname
        StorageController := types.2
        BusPath := diskBusPath fs dname
        NUMANodeID := diskNUMANodeID fs dname
        Vendor := diskVendor fs dname
        Model := diskModel fs dname
        SerialNumber := diskSerialNumber fs dname
        WWN := diskWWN fs dname
        Partitions := parts }

/-- The enumeration loop of `disks` from the source: skip names with the
`loop` prefix, build a disk per remaining name, preserving listing order. -/
def disksLoop (fs : FS) : List String → GoVal (List Disk)
  | [] => GoVal.ret []
  | dname :: rest =>
    if goHasPrefix dname "loop" then disksLoop fs rest
    else
      match buildDisk fs dname with
      | GoVal.panicked => GoVal.panicked
      | GoVal.ret d =>
        match disksLoop fs rest with
        | GoVal.panicked => GoVal.panicked
        | GoVal.ret ds => GoVal.ret (d :: ds)

/-- `disks` from the source: list the device-tree root; a listing failure
aborts discovery with no devices. -/
def disks (fs : FS) : GoVal (List Disk) :=
  match fs.readDir pathSysBlock with
  | none => GoVal.ret []
  | some files => disksLoop fs files

/-- `blockFillInfo` from the source, applied to the device list produced by
`disks`: the total is accumulated into a Go `uint64`, so each addition wraps
modulo `2 ^ 64`. -/
def blockFillInfo (ds : List Disk) : BlockInfo :=
  { Disks := ds
    TotalPhysicalBytes := ds.foldl (fun tpb d => (tpb + d.SizeBytes) % 2 ^ 64) 0 }

/-- Spec-side lookup (§4.6): the first mount-table entry whose device field
equals the normalised path (lines that parse to no entry, or would panic, are
passed over). -/
def firstMtabMatch (part : String) : List String → Option mtabEntry
  | [] => none
  | line :: rest =>
    match parseMtabEntry line with
    | GoVal.ret (some e) =>
      if e.Partition = part then some e else firstMtabMatch part rest
    | _ => firstMtabMatch part rest

/-- Spec-side result of a mount lookup (§4.6): fields of the first matching
entry with read-only derived from the literal "rw" option, or the
empty/read-only default when no entry matches. -/
def specMtabLookup (part : String) (lines : List String) : String × String × Bool :=
  match firstMtabMatch part lines with
  | some e => (e.Mountpoint, e.FilesystemType, !(e.Options.contains "rw"))
  | none => ("", "", true)

/-- A mount table whose scanned lines are all non-empty (the condition under
which the source's `parseMtabEntry` cannot panic); an unreadable mount table
satisfies it vacuously. -/
def MtabOk (fs : FS) : Prop :=
  ∀ content, fs.readFile pathEtcMtab = some content →
    ∀ l ∈ goScanLines content, l ≠ ""

/-- Device tree for the NUMA divergence: the symlink resolves into the
devices subtree and the `numa_node` attribute there is readable and holds the
integer 1. -/
def fsNumaReadable : FS :=
  { readFile := fun p =>
      if p = "/sys/block/../devices/pci0/sda/numa_node" then some "1" else none
    readDir := fun _ => none
    readlink := fun p =>
      if p = "/sys/block/sda" then some "../devices/pci0/sda" else none }

/-- Device tree for the NUMA divergence: same symlink, but the `numa_node`
attribute is unreadable. -/
def fsNumaUnreadable : FS :=
  { readFile := fun _ => none
    readDir := fun _ => none
    readlink := fun p =>
      if p = "/sys/block/sda" then some "../devices/pci0/sda" else none }

/-- Properties database holding `ID_SERIAL` but not `ID_SERIAL_SHORT`. -/
def fsSerialOnly : FS :=
  { readFile := fun p =>
      if p = "/sys/block/sda/dev" then some "8:0\n"
      else if p = "/run/udev/data/b8:0" then some "E:ID_SERIAL=XYZ123\n"
      else none
    readDir := fun _ => none
    readlink := fun _ => none }

/-- The parsed properties record of `fsSerialOnly`. -/
def recSerialOnly : String → Option String :=
  udevParseLines (goSplitChar '\n' "E:ID_SERIAL=XYZ123\n")

/-- Device tree with two disks of 2^63 bytes each: their size attributes hold
2^54 sectors, so each disk's size is 2^54 * 512 = 2^63 and the exact total
2^64 overflows a Go `uint64`. -/
def fsOverflow : FS :=
  { readFile := fun p =>
      if p = "/sys/block/sda/size" then some "18014398509481984\n"
      else if p = "/sys/block/sdb/size" then some "18014398509481984\n"
      else none
    readDir := fun p =>
      if p = "/sys/block" then some ["sda", "sdb"] else none
    readlink := fun _ => none }

/-- The disk record `disks` builds on `fsOverflow` for either device name:
every attribute other than the size degrades to its sentinel, and the
unreadable rotational flag forces the SSD override. -/
def diskOverflow (n : String) : Disk :=
  { Name := n
    SizeBytes := 9223372036854775808
    PhysicalBlockSizeBytes := 0
    DriveType := DRIVE_TYPE_SSD
    IsRemovable := false
    StorageController := STORAGE_CONTROLLER_SCSI
    BusPath := UNKNOWN
    NUMANodeID := -1
    Vendor := UNKNOWN
    Model := UNKNOWN
    SerialNumber := UNKNOWN
    WWN := UNKNOWN
    Partitions := [] }

/-- The fully unreadable file system: every read fails. -/
def fsEmpty : FS :=
  { readFile := fun _ => none
    readDir := fun _ => none
    readlink := fun _ => none }

/-- Device-tree root listing a loopback pseudo-device next to a disk. -/
def fsWithLoop : FS :=
  { readFile := fun _ => none
    readDir := fun p =>
      if p = "/sys/block" then some ["loop0", "sda"] else none
    readlink := fun _ => none }

/-- The single disk `disks` builds on `fsWithLoop` ("loop0" is excluded and
every attribute of "sda" degrades to its sentinel). -/
def diskBare : Disk :=
  { Name := "sda"
    SizeBytes := 0
    PhysicalBlockSizeBytes := 0
    DriveType := DRIVE_TYPE_SSD
    IsRemovable := false
    StorageController := STORAGE_CONTROLLER_SCSI
    BusPath := UNKNOWN
    NUMANodeID := -1
    Vendor := UNKNOWN
    Model := UNKNOWN
    SerialNumber := UNKNOWN
    WWN := UNKNOWN
    Partitions := [] }

/-- Device tree whose size attribute is readable but non-numeric. -/
def fsBadSize : FS :=
  { readFile := fun p =>
      if p = "/sys/block/sda/size" then some "notanumber\n" else none
    readDir := fun _ => none
    readlink := fun _ => none }

/-- Device tree whose partition size attribute is readable but non-numeric. -/
def fsBadPartSize : FS :=
  { readFile := fun p =>
      if p = "/sys/block/sda/sda1/size" then some "notanumber\n" else none
    readDir := fun _ => none
    readlink := fun _ => none }

/-- A mount table with one matching read-write entry for `sda1`. -/
def fsMtabRw : FS :=
  { readFile := fun p =>
      if p = pathEtcMtab then some "/dev/sda1 /mnt ext4 rw,relatime 0 0\n" else none
    readDir := fun _ => none
    readlink := fun _ => none }

/-- A mount table with entries, none of which matches `sda1`. -/
def fsMtabOther : FS :=
  { readFile := fun p =>
      if p = pathEtcMtab then some "/dev/sdb1 /mnt ext4 rw 0 0\n" else none
    readDir := fun _ => none
    readlink := fun _ => none }

theorem toList_ne_nil_of_ne_empty {line : String} (h : line ≠ "") :
    line.toList ≠ [] := by
  intro hnil
  apply h
  cases line with
  | mk data =>
    have hd : data = [] := hnil
    rw [hd]

theorem parseMtab_total (line : String) (h : line ≠ "") :
    ∃ r, parseMtabEntry line = GoVal.ret r ∧
      ((line.toList.head? ≠ some '/' ∨ (goFields line).length < 4) → r = none) := by
  rcases hl : line.toList with _ | ⟨c, rest⟩
  · exact absurd hl (toList_ne_nil_of_ne_empty h)
  · have hd : line.data = c :: rest := hl
    by_cases hc : c = '/'
    · by_cases h4 : (goFields line).length < 4
      · exact ⟨none, by simp [parseMtabEntry, hd, hc, h4], fun _ => rfl⟩
      · refine ⟨some
          { Partition := (goFields line).getD 0 ""
            Mountpoint := mtabDecodeStr ((goFields line).getD 1 "")
            FilesystemType := (goFields line).getD 2 ""
            Options := goSplitChar ',' ((goFields line).getD 3 "") }, ?_, ?_⟩
        · simp [parseMtabEntry, hd, hc, h4]
        · intro hor
          rcases hor with h1 | h2
          · exact absurd (by simp [hl, hc]) h1
          · exact absurd h2 h4
    · exact ⟨none, by simp [parseMtabEntry, hd, hc], fun _ => rfl⟩

theorem roFromOptions_eq_contains (opts : List String) :
    roFromOptions opts = !(opts.contains "rw") := by
  induction opts with
  | nil => rfl
  | cons opt rest ih =>
    by_cases h : opt = "rw" <;>
      simp [roFromOptions, List.contains_cons, h, ih, beq_iff_eq, eq_comm]

theorem partitionInfoLoop_spec (part : String) (lines : List String)
    (h : ∀ l ∈ lines, l ≠ "") :
    partitionInfoLoop part lines = GoVal.ret (specMtabLookup part lines) := by
  induction lines with
  | nil => rfl
  | cons line rest ih =>
    have hl : line ≠ "" := h line (List.mem_cons_self _ _)
    have ihr := ih (fun l hm => h l (List.mem_cons_of_mem _ hm))
    obtain ⟨r, hr, -⟩ := parseMtab_total line hl
    cases r with
    | none =>
      simp only [partitionInfoLoop, specMtabLookup, firstMtabMatch, hr]
      simpa [specMtabLookup] using ihr
    | some e =>
      by_cases he : e.Partition = part
      · simp [partitionInfoLoop, specMtabLookup, firstMtabMatch, hr, he,
          roFromOptions_eq_contains]
      · simp only [partitionInfoLoop, specMtabLookup, firstMtabMatch, hr, if_neg he,
          if_pos (by exact he : e.Partition ≠ part)]
        simpa [specMtabLookup] using ihr

theorem foldlWrap (l : List Nat) : ∀ a : Nat,
    l.foldl (fun t x => (t + x) % 2 ^ 64) (a % 2 ^ 64) = (a + l.sum) % 2 ^ 64 := by
  induction l with
  | nil => intro a; simp
  | cons x xs ih =>
    intro a
    simp only [List.foldl_cons, List.sum_cons]
    rw [Nat.mod_add_mod, ih (a + x), Nat.add_assoc]

theorem partitionInfo_total (fs : FS) (hm : MtabOk fs) (p : String) :
    ∃ v, partitionInfo fs p = GoVal.ret v := by
  unfold partitionInfo
  cases hc : fs.readFile pathEtcMtab with
  | none => exact ⟨_, rfl⟩
  | some content => exact ⟨_, partitionInfoLoop_spec _ _ (hm content hc)⟩

theorem diskPartitionsLoop_total (fs : FS) (hm : MtabOk fs) (disk : String)
    (files : List String) : ∃ ps, diskPartitionsLoop fs disk files = GoVal.ret ps := by
  induction files with
  | nil => exact ⟨[], rfl⟩
  | cons fname rest ih =>
    obtain ⟨ps, hps⟩ := ih
    by_cases hpre : goHasPrefix fname disk = false
    · exact ⟨ps, by simp [diskPartitionsLoop, hpre, hps]⟩
    · rw [Bool.not_eq_false] at hpre
      obtain ⟨⟨mp, pt, ro⟩, hv⟩ := partitionInfo_total fs hm fname
      exact ⟨{ Name := fname, SizeBytes := partitionSizeBytes fs disk fname,
               MountPoint := mp, PartType := pt, IsReadOnly := ro } :: ps,
             by simp [diskPartitionsLoop, hpre, hv, hps]⟩

theorem diskPartitions_total (fs : FS) (hm : MtabOk fs) (dname : String) :
    ∃ ps, diskPartitions fs dname = GoVal.ret ps := by
  unfold diskPartitions
  cases hd : fs.readDir (goJoin [pathSysBlock, dname]) with
  | none => exact ⟨[], rfl⟩
  | some files => exact diskPartitionsLoop_total fs hm dname files

theorem buildDisk_name (fs : FS) (dname : String) (d : Disk)
    (h : buildDisk fs dname = GoVal.ret d) : d.Name = dname := by
  unfold buildDisk at h
  cases hp : diskPartitions fs dname with
  | panicked => rw [hp] at h; exact absurd h (by simp)
  | ret parts =>
    rw [hp] at h
    injection h with h2
    rw [← h2]

theorem buildDisk_total (fs : FS) (hm : MtabOk fs) (dname : String) :
    ∃ d, buildDisk fs dname = GoVal.ret d ∧ d.Name = dname := by
  obtain ⟨ps, hps⟩ := diskPartitions_total fs hm dname
  cases hb : buildDisk fs dname with
  | panicked =>
    unfold buildDisk at hb
    rw [hps] at hb
    simp at hb
  | ret d => exact ⟨d, rfl, buildDisk_name fs dname d hb⟩

theorem disksLoop_names (fs : FS) (files : List String) :
    ∀ l : List Disk, disksLoop fs files = GoVal.ret l →
      ∀ d ∈ l, goHasPrefix d.Name "loop" = false := by
  induction files with
  | nil =>
    intro l h d hd
    simp only [disksLoop] at h
    injection h with h1
    rw [← h1] at hd
    cases hd
  | cons dname rest ih =>
    intro l h d hd
    by_cases hl : goHasPrefix dname "loop"
    · simp only [disksLoop, if_pos hl] at h
      exact ih l h d hd
    · simp only [disksLoop, if_neg hl] at h
      cases hb : buildDisk fs dname with
      | panicked => rw [hb] at h; exact absurd h (by simp)
      | ret d0 =>
        rw [hb] at h
        cases hr : disksLoop fs rest with
        | panicked => rw [hr] at h; exact absurd h (by simp)
        | ret ds =>
          rw [hr] at h
          injection h with h1
          rw [← h1] at hd
          rcases List.mem_cons.mp hd with hdEq | hd2
          · rw [hdEq, buildDisk_name fs dname d0 hb]
            exact Bool.eq_false_iff.mpr hl
          · exact ih ds hr d hd2

/-- C1: evaluation of the NUMA-node resolution at its failing inputs.  The
claim (and spec §4.3/§9) requires the first successfully parsed `numa_node`
integer, else -1; the source's inverted error checks instead return -1 when
the attribute is readable and parseable (here with value 1), and return
Atoi's zero error-value when the attribute is unreadable. -/
theorem diskNUMANodeID_invertedCheck :
    fsNumaReadable.readFile "/sys/block/../devices/pci0/sda/numa_node" = some "1" ∧
    goAtoi "1" = (1, true) ∧
    diskNUMANodeID fsNumaReadable "sda" = -1 ∧
    fsNumaUnreadable.readFile "/sys/block/../devices/pci0/sda/numa_node" = none ∧
    diskNUMANodeID fsNumaUnreadable "sda" = 0 ∧
    (0 : Int) ≠ -1 := by
  refine ⟨rfl, by decide, by decide, rfl, by decide, by decide⟩

/-- C2 counterexample: a properties record holding `ID_SERIAL` but not
`ID_SERIAL_SHORT`; the claim requires the `ID_SERIAL` value `"XYZ123"`, but
the source returns the unknown sentinel. -/
theorem diskSerialNumber_noFallback_cx :
    udevInfo fsSerialOnly "sda" = some recSerialOnly ∧
    recSerialOnly "ID_SERIAL" = some "XYZ123" ∧
    recSerialOnly "ID_SERIAL_SHORT" = none ∧
    diskSerialNumber fsSerialOnly "sda" = UNKNOWN ∧
    UNKNOWN ≠ "XYZ123" := by
  refine ⟨rfl, by decide, by decide, by decide, by decide⟩

/-- C2 (amended): the serial-number derivation returns the value of
`ID_SERIAL_SHORT` when that key is present and the unknown sentinel in every
other case - including when `ID_SERIAL` alone is present; there is no
fallback to `ID_SERIAL`. -/
theorem diskSerialNumber_shortOnly :
    (∀ (fs : FS) (disk : String), udevInfo fs disk = none →
        diskSerialNumber fs disk = UNKNOWN) ∧
    (∀ (fs : FS) (disk : String) (info : String → Option String),
        udevInfo fs disk = some info →
        (∀ v, info "ID_SERIAL_SHORT" = some v → diskSerialNumber fs disk = v) ∧
        (info "ID_SERIAL_SHORT" = none → diskSerialNumber fs disk = UNKNOWN)) := by
  constructor
  · intro fs disk h
    simp [diskSerialNumber, h]
  · intro fs disk info h
    constructor
    · intro v hv
      simp [diskSerialNumber, h, hv]
    · intro hv
      simp [diskSerialNumber, h, hv]

theorem diskSerialNumber_shortOnly_witness :
    diskSerialNumber fsSerialOnly "sda" = UNKNOWN :=
  (diskSerialNumber_shortOnly.2 fsSerialOnly "sda" recSerialOnly rfl).2 rfl

/-- C3: for every mount-table line beginning with `/` and holding at least 4
whitespace-separated fields, the parsed mount point is the second field under
the four-substitution single-pass decoder; the concrete conjuncts check the
spec's decoding examples and that a backslash produced by the `\\\\`
substitution is never reinterpreted as the start of another escape. -/
theorem parseMtab_mountpointDecode :
    (∀ line : String, line ≠ "" → line.toList.head? = some '/' →
      4 ≤ (goFields line).length →
      ∃ e, parseMtabEntry line = GoVal.ret (some e) ∧
        e.Mountpoint = mtabDecodeStr ((goFields line).getD 1 "")) ∧
    mtabDecodeStr "/home/Name\\040with\\040spaces" = "/home/Name with spaces" ∧
    mtabDecodeStr "/home/Name\\011with\\012tab&newline" = "/home/Name\twith\ntab&newline" ∧
    mtabDecodeStr "/home/Name\\\\withslash" = "/home/Name\\withslash" ∧
    (∀ cs : List Char,
      mtabDecode ('\\' :: '\\' :: '0' :: '4' :: '0' :: cs) =
        '\\' :: '0' :: '4' :: '0' :: mtabDecode cs) := by
  refine ⟨?_, by decide, by decide, by decide, fun cs => rfl⟩
  intro line hne hhead h4
  rcases hl : line.toList with _ | ⟨c, rest⟩
  · exact absurd hl (toList_ne_nil_of_ne_empty hne)
  · have hd : line.data = c :: rest := hl
    have hc : c = '/' := by
      rw [hl] at hhead
      exact Option.some.inj hhead
    refine ⟨{ Partition := (goFields line).getD 0 ""
              Mountpoint := mtabDecodeStr ((goFields line).getD 1 "")
              FilesystemType := (goFields line).getD 2 ""
              Options := goSplitChar ',' ((goFields line).getD 3 "") }, ?_, rfl⟩
    simp [parseMtabEntry, hd, hc, Nat.not_lt.mpr h4]

theorem parseMtab_mountpointDecode_witness :
    ∃ e, parseMtabEntry "/dev/sda8 /home/Name\\040with\\040spaces ext4 ro 0 0" =
        GoVal.ret (some e) ∧
      e.Mountpoint = mtabDecodeStr
        ((goFields "/dev/sda8 /home/Name\\040with\\040spaces ext4 ro 0 0").getD 1 "") :=
  parseMtab_mountpointDecode.1 _ (by decide) (by decide) (by decide)

/-- C4 counterexample: the empty line makes `parseMtabEntry` panic (the
source indexes `line[0]` before any length check), so the parser is not total
on every input line. -/
theorem parseMtab_skip_cx : parseMtabEntry "" = GoVal.panicked := rfl

/-- C4 (amended): for every NON-empty input line, `parseMtabEntry` evaluates
totally, and returns "no entry" whenever the line does not begin with `/` or
has fewer than 4 whitespace-separated fields; on the empty line it panics
with an index-out-of-range instead. -/
theorem parseMtab_skip (line : String) (h : line ≠ "") :
    ∃ r, parseMtabEntry line = GoVal.ret r ∧
      ((line.toList.head? ≠ some '/' ∨ (goFields line).length < 4) → r = none) :=
  parseMtab_total line h

theorem parseMtab_skip_witness :
    ∃ r, parseMtabEntry "Indy, bad dates" = GoVal.ret r ∧
      (("Indy, bad dates".toList.head? ≠ some '/' ∨
        (goFields "Indy, bad dates").length < 4) → r = none) :=
  parseMtab_skip "Indy, bad dates" (by decide)

/-- C5: on a readable mount table (whose scanned lines are non-empty, the
source's implicit panic-freedom condition), the mount lookup returns exactly
the spec-side result: the first entry matching the normalised device path,
with read-only false exactly when that entry's option sequence contains the
literal "rw", and the empty/read-only default - not an error - when no entry
matches. -/
theorem partitionInfo_firstMatchRw (fs : FS) (p content : String)
    (h1 : fs.readFile pathEtcMtab = some content)
    (h2 : ∀ l ∈ goScanLines content, l ≠ "") :
    partitionInfo fs p = GoVal.ret (specMtabLookup (normDev p) (goScanLines content)) := by
  simp only [partitionInfo, h1]
  exact partitionInfoLoop_spec _ _ h2

theorem partitionInfo_firstMatchRw_witness :
    partitionInfo fsMtabRw "sda1" =
      GoVal.ret (specMtabLookup (normDev "sda1")
        (goScanLines "/dev/sda1 /mnt ext4 rw,relatime 0 0\n")) :=
  partitionInfo_firstMatchRw fsMtabRw "sda1" _ rfl (by decide)

/-- C10: an unreadable mount table yields exactly the empty/read-only triple,
and that is the same result the lookup returns when the table is readable but
no entry matches the normalised device path. -/
theorem partitionInfo_unreadableMtab :
    (∀ (fs : FS) (part : String), fs.readFile pathEtcMtab = none →
        partitionInfo fs part = GoVal.ret ("", "", true)) ∧
    (∀ (fs : FS) (part content : String),
        fs.readFile pathEtcMtab = some content →
        (∀ l ∈ goScanLines content, l ≠ "") →
        firstMtabMatch (normDev part) (goScanLines content) = none →
        partitionInfo fs part = GoVal.ret ("", "", true)) := by
  constructor
  · intro fs part h
    simp [partitionInfo, h]
  · intro fs part content h1 h2 h3
    simp only [partitionInfo, h1]
    rw [partitionInfoLoop_spec _ _ h2]
    simp [specMtabLookup, h3]

theorem partitionInfo_unreadableMtab_witness :
    partitionInfo fsEmpty "sda1" = GoVal.ret ("", "", true) ∧
    partitionInfo fsMtabOther "sda1" = GoVal.ret ("", "", true) :=
  ⟨partitionInfo_unreadableMtab.1 fsEmpty "sda1" rfl,
   partitionInfo_unreadableMtab.2 fsMtabOther "sda1" _ rfl (by decide) (by decide)⟩

/-- C7 counterexample: through the full pipeline, two discovered disks of
2^63 bytes each make the wrapping `uint64` accumulator return 0 while the
exact sum of the disk sizes is 2^64, so the total is not the exact sum. -/
theorem blockFillInfo_overflow_cx :
    disks fsOverflow = GoVal.ret [diskOverflow "sda", diskOverflow "sdb"] ∧
    (blockFillInfo [diskOverflow "sda", diskOverflow "sdb"]).TotalPhysicalBytes = 0 ∧
    (([diskOverflow "sda", diskOverflow "sdb"]).map (fun d => d.SizeBytes)).sum = 2 ^ 64 ∧
    (blockFillInfo [diskOverflow "sda", diskOverflow "sdb"]).TotalPhysicalBytes ≠
      (([diskOverflow "sda", diskOverflow "sdb"]).map (fun d => d.SizeBytes)).sum := by
  refine ⟨by decide, by decide, by decide, by decide⟩

/-- C7 (amended): the aggregate total equals the sum of all disk sizes
reduced modulo 2^64 - hence the exact sum whenever that sum fits in a Go
`uint64` - and equals 0 for the empty disk list. -/
theorem blockFillInfo_totalBytes :
    (∀ ds : List Disk,
      (blockFillInfo ds).TotalPhysicalBytes =
        (ds.map (fun d => d.SizeBytes)).sum % 2 ^ 64) ∧
    (blockFillInfo []).TotalPhysicalBytes = 0 := by
  constructor
  · intro ds
    have hstep : (blockFillInfo ds).TotalPhysicalBytes =
        (ds.map (fun d => d.SizeBytes)).foldl (fun t x => (t + x) % 2 ^ 64) 0 := by
      simp [blockFillInfo, List.foldl_map]
    rw [hstep]
    simpa using foldlWrap (ds.map (fun d => d.SizeBytes)) 0
  · rfl

/-- C8: device enumeration never returns a device whose name has the `loop`
prefix, and an unlistable device-tree root aborts discovery with no devices
regardless of anything else in the tree. -/
theorem disks_excludeLoop :
    (∀ fs : FS, fs.readDir pathSysBlock = none → disks fs = GoVal.ret []) ∧
    (∀ (fs : FS) (l : List Disk), disks fs = GoVal.ret l →
        ∀ d ∈ l, goHasPrefix d.Name "loop" = false) := by
  constructor
  · intro fs h
    simp [disks, h]
  · intro fs l h d hd
    unfold disks at h
    cases hr : fs.readDir pathSysBlock with
    | none =>
      rw [hr] at h
      injection h with h1
      rw [← h1] at hd
      cases hd
    | some files =>
      rw [hr] at h
      exact disksLoop_names fs files l h d hd

theorem disks_excludeLoop_witness :
    disks fsEmpty = GoVal.ret [] ∧ goHasPrefix diskBare.Name "loop" = false :=
  ⟨disks_excludeLoop.1 fsEmpty rfl,
   disks_excludeLoop.2 fsWithLoop [diskBare] (by decide) diskBare
     (List.mem_singleton.mpr rfl)⟩

/-- C9: every disk size and every partition size is a (non-negative) multiple
of the 512-byte sector size, and each is exactly 0 when its size attribute is
unreadable or non-numeric; a device whose attributes all fail is still fully
built with its name intact (one attribute's failure never aborts the device,
provided the mount table cannot make the partition scan panic). -/
theorem sizeBytes_sectorMultiple :
    (∀ (fs : FS) (disk : String), 512 ∣ diskSizeBytes fs disk) ∧
    (∀ (fs : FS) (disk part : String), 512 ∣ partitionSizeBytes fs disk part) ∧
    (∀ (fs : FS) (disk : String),
        fs.readFile (goJoin [pathSysBlock, disk, "size"]) = none →
        diskSizeBytes fs disk = 0) ∧
    (∀ (fs : FS) (disk contents : String),
        fs.readFile (goJoin [pathSysBlock, disk, "size"]) = some contents →
        goParseUint64 (goTrimSpace contents) = none →
        diskSizeBytes fs disk = 0) ∧
    (∀ (fs : FS) (disk part : String),
        fs.readFile (goJoin [pathSysBlock, disk, part, "size"]) = none →
        partitionSizeBytes fs disk part = 0) ∧
    (∀ (fs : FS) (disk part contents : String),
        fs.readFile (goJoin [pathSysBlock, disk, part, "size"]) = some contents →
        goParseUint64 (goTrimSpace contents) = none →
        partitionSizeBytes fs disk part = 0) ∧
    (∀ (fs : FS) (dname : String), MtabOk fs →
        ∃ d, buildDisk fs dname = GoVal.ret d ∧ d.Name = dname) := by
  have h512 : (512 : Nat) ∣ 2 ^ 64 := ⟨2 ^ 55, by norm_num⟩
  have hmul : ∀ n : Nat, (512 : Nat) ∣ n * sectorSize % 2 ^ 64 := by
    intro n
    refine (Nat.dvd_mod_iff h512).mpr ?_
    exact ⟨n, by simp [sectorSize, Nat.mul_comm]⟩
  refine ⟨?_, ?_, ?_, ?_, ?_, ?_, fun fs dname hm => buildDisk_total fs hm dname⟩
  · intro fs disk
    unfold diskSizeBytes
    rcases fs.readFile (goJoin [pathSysBlock, disk, "size"]) with _ | c
    · simp
    · rcases hp : goParseUint64 (goTrimSpace c) with _ | n
      · simp [hp]
      · simp only [hp]
        exact hmul n
  · intro fs disk part
    unfold partitionSizeBytes
    rcases fs.readFile (goJoin [pathSysBlock, disk, part, "size"]) with _ | c
    · simp
    · rcases hp : goParseUint64 (goTrimSpace c) with _ | n
      · simp [hp]
      · simp only [hp]
        exact hmul n
  · intro fs disk h
    simp [diskSizeBytes, h]
  · intro fs disk contents h1 h2
    simp [diskSizeBytes, h1, h2]
  · intro fs disk part h
    simp [partitionSizeBytes, h]
  · intro fs disk part contents h1 h2
    simp [partitionSizeBytes, h1, h2]

theorem sizeBytes_sectorMultiple_witness :
    512 ∣ diskSizeBytes fsOverflow "sda" ∧
    512 ∣ partitionSizeBytes fsBadPartSize "sda" "sda1" ∧
    diskSizeBytes fsEmpty "sda" = 0 ∧
    diskSizeBytes fsBadSize "sda" = 0 ∧
    partitionSizeBytes fsEmpty "sda" "sda1" = 0 ∧
    partitionSizeBytes fsBadPartSize "sda" "sda1" = 0 ∧
    (∃ d, buildDisk fsEmpty "sda" = GoVal.ret d ∧ d.Name = "sda") :=
  ⟨sizeBytes_sectorMultiple.1 fsOverflow "sda",
   sizeBytes_sectorMultiple.2.1 fsBadPartSize "sda" "sda1",
   sizeBytes_sectorMultiple.2.2.1 fsEmpty "sda" rfl,
   sizeBytes_sectorMultiple.2.2.2.1 fsBadSize "sda" "notanumber\n" rfl (by decide),
   sizeBytes_sectorMultiple.2.2.2.2.1 fsEmpty "sda" "sda1" rfl,
   sizeBytes_sectorMultiple.2.2.2.2.2.1 fsBadPartSize "sda" "sda1" "notanumber\n" rfl
     (by decide),
   sizeBytes_sectorMultiple.2.2.2.2.2.2 fsEmpty "sda" (fun c hc => nomatch hc)⟩
